import Mathlib

/-!
Shallow embedding of `src/index.js` (sample-player): Sample (voice) lifecycle,
Player (voice registry), option resolution and pitch conversion, together with
theorems checking the specification's claims against this embedding.

Conventions: JS `undefined` is `Option.none`; audio-clock times are real
numbers; machine floats are modelled as real (ℝ) or rational (ℚ) numbers.
-/

/-- Values that can appear in an option hash (`DEFAULTS` in the source holds
numbers, a boolean, a string and a 4-element numeric array). -/
inductive OptVal where
  | num (x : ℚ)
  | bool (b : Bool)
  | str (s : String)
  | arr (xs : List ℚ)
deriving DecidableEq

/-- The source's `DEFAULTS` hash: global default sample options. -/
def DEFAULTS : List (String × OptVal) :=
  [("gain", OptVal.num 1),
   ("loop", OptVal.bool false),
   ("pitch", OptVal.num 0),
   ("loopStart", OptVal.num 0),
   ("loopEnd", OptVal.num 0),
   ("adsr", OptVal.arr [0.01, 0.1, 0.8, 0.3]),
   ("filter", OptVal.str "highpass"),
   ("freq", OptVal.num 0)]

/-- The source's private `from (a, b, c)`: a three-tier hash accessor.
`name in a ? a[name] : (name in b ? b[name] : c[name])`; a key absent from
all three tiers yields JS `undefined`, i.e. `none`. (`from` is a Lean
keyword, hence the trailing apostrophe.) -/
def from' (a b c : List (String × OptVal)) : String → Option OptVal := fun name =>
  if (a.lookup name).isSome then a.lookup name
  else if (b.lookup name).isSome then b.lookup name
  else c.lookup name

/-- The source's `centsToRate (cents)`: `Math.pow(2, cents / 1200)`. -/
noncomputable def centsToRate (cents : ℝ) : ℝ := (2 : ℝ) ^ (cents / 1200)

/-- Line 63 of the source: `centsToRate(opts('pitch') * 100)` — the pitch
option (in semitones) is multiplied by 100 to obtain cents, then converted. -/
noncomputable def pitchToRate (p : ℝ) : ℝ := centsToRate (p * 100)

/-- An audio buffer handle (contents irrelevant to the scheduling core). -/
structure Buffer where
  bid : Nat
deriving DecidableEq

/-- A destination audio-node handle. -/
structure Dest where
  did : Nat
deriving DecidableEq

/-- A JS runtime error. Dereferencing a property of `undefined`
(`destination.context` with no destination) raises a TypeError. -/
inductive JsError where
  | typeError
deriving DecidableEq

/-- The state a `Sample` constructor call builds: every field the source
assigns on the four owned nodes. Option lookups keep their raw (possibly
absent) values; `playbackRate` is the converted pitch (absent when the
`pitch` option is not a number, standing for JS `NaN`). -/
structure SampleState where
  ampGain : ℚ
  ampDest : Dest
  envAdsr : Option OptVal
  envValue : Option OptVal
  filterType : Option OptVal
  filterFreq : Option OptVal
  buffer : Option Buffer
  loop : Option OptVal
  playbackRate : Option ℝ
  loopStart : Option OptVal
  loopEnd : Option OptVal

/-- The `Sample (buffer, destination, options, event)` constructor.
The very first use of `destination` is `destination.context` (line 45),
so a missing destination raises a TypeError before anything else happens.
Next, line 50 passes the resolved `adsr` option to the adsr helper
(lines 287-292), whose first step indexes it (`adsr[0]`): when that option
resolved to `undefined`, the indexing raises a TypeError and construction
fails there; any other value (array or not) is indexed without error.
`buffer`, by contrast, is only ever assigned to `source.buffer` (line 60) —
the source contains no check of it, so construction proceeds with an absent
buffer. `opts` stands for the accessor the constructor builds on line 44
(`typeof options === 'function' ? options : from(options, {}, {})`). -/
noncomputable def sampleNew (buffer : Option Buffer) (destination : Option Dest)
    (opts : String → Option OptVal) : Except JsError SampleState :=
  match destination with
  | none => Except.error JsError.typeError
  | some dest =>
    match opts "adsr" with
    | none => Except.error JsError.typeError
    | some _ =>
      Except.ok
        { ampGain := 0
          ampDest := dest
          envAdsr := opts "adsr"
          envValue := opts "gain"
          filterType := opts "filter"
          filterFreq := opts "freq"
          buffer := buffer
          loop := opts "loop"
          playbackRate :=
            match opts "pitch" with
            | some (OptVal.num p) => some (centsToRate ((p : ℝ) * 100))
            | _ => none
          loopStart := opts "loopStart"
          loopEnd := opts "loopEnd" }

/-- Whether an `Except` is a success (JS: the constructor returned normally). -/
def exceptIsOk {ε α : Type _} : Except ε α → Bool
  | Except.ok _ => true
  | Except.error _ => false

/-- Event names fired through the player's event sink
(the string literals of the source). -/
inductive EvName where
  | start
  | stop
  | ended
deriving DecidableEq

/-- The four nodes a Sample owns and disconnects on its natural end. -/
inductive SNode where
  | source
  | filter
  | amp
  | env
deriving DecidableEq

/-- Observable actions a Sample performs, in program order: event emission,
envelope attack/release scheduling, source start / hard-stop scheduling, a
recursive `this.stop(...)` invocation, node disconnection, and the invocation
of the registered `onended` end-of-life callback. -/
inductive SAction where
  | event (name : EvName) (at_ : Option ℝ)
  | envStart (t : ℝ)
  | sourceStart (t : ℝ)
  | envRelease (t : ℝ)
  | sourceStop (t : Option ℝ)
  | stopInvoked (t : ℝ)
  | disconnect (n : SNode)
  | endedCallback

/-- JS `when || ct`: `undefined` and `0` are falsy, so both fall back to the
clock's current time. -/
noncomputable def jsOr (when : Option ℝ) (ct : ℝ) : ℝ :=
  match when with
  | none => ct
  | some w => if w = 0 then ct else w

/-- `Sample.prototype.stop (when)` as an action trace. `ef` is the envelope's
`stop` function: it is handed the release start time `when || currentTime`
and returns `stopAt`, the time the release completes; the source's hard stop
is then scheduled at exactly that returned time (lines 122-126). -/
noncomputable def sampleStopActions (ef : ℝ → ℝ) (ct : ℝ) (when : Option ℝ) : List SAction :=
  [SAction.event EvName.stop when,
   SAction.envRelease (jsOr when ct),
   SAction.sourceStop (some (ef (jsOr when ct)))]

/-- `Sample.prototype.start (when, duration)` as an action trace: emit the
start event, schedule the envelope attack and the source at `when`, and —
only when `duration > 0` (JS: false for `undefined`) — invoke
`this.stop(when + duration)`, whose own actions follow (lines 103-108). -/
noncomputable def sampleStartActions (ef : ℝ → ℝ) (ct : ℝ) (when : ℝ)
    (duration : Option ℝ) : List SAction :=
  [SAction.event EvName.start (some when),
   SAction.envStart when,
   SAction.sourceStart when] ++
  match duration with
  | some d =>
      if 0 < d then
        SAction.stopInvoked (when + d) :: sampleStopActions ef ct (some (when + d))
      else []
  | none => []

/-- The `source.onended` handler (lines 67-75): emit `ended`, stop the source,
disconnect the four owned nodes, invoke the registered `onended` callback.
This is the only place in the source where disconnection or the end-of-life
callback occur. -/
def onendedActions : List SAction :=
  [SAction.event EvName.ended none,
   SAction.sourceStop none,
   SAction.disconnect SNode.source,
   SAction.disconnect SNode.filter,
   SAction.disconnect SNode.amp,
   SAction.disconnect SNode.env,
   SAction.endedCallback]

/-- Full trace of a voice that plays to natural completion: the host fires the
source's one-shot finished notification after the start actions. -/
noncomputable def naturalEndTrace (ef : ℝ → ℝ) (ct : ℝ) (when : ℝ)
    (duration : Option ℝ) : List SAction :=
  sampleStartActions ef ct when duration ++ onendedActions

/-- Full trace of a voice that is explicitly stopped: the scheduled hard stop
makes the host fire the same one-shot finished notification afterwards. -/
noncomputable def explicitStopTrace (ef : ℝ → ℝ) (ct : ℝ) (when : ℝ)
    (duration : Option ℝ) (sw : Option ℝ) : List SAction :=
  sampleStartActions ef ct when duration ++ sampleStopActions ef ct sw ++ onendedActions

/-- Recognizes the cleanup actions of a trace: the `ended` event, node
disconnections and the end-of-life callback. -/
def isCleanup : SAction → Bool
  | SAction.event n _ => n = EvName.ended
  | SAction.disconnect _ => true
  | SAction.endedCallback => true
  | _ => false

/-- The cleanup actions a single natural-end notification performs, in order. -/
def cleanupSeq : List SAction :=
  [SAction.event EvName.ended none,
   SAction.disconnect SNode.source,
   SAction.disconnect SNode.filter,
   SAction.disconnect SNode.amp,
   SAction.disconnect SNode.env,
   SAction.endedCallback]

/-- The result of `Player.prototype.stop`: a single id-or-null, or an array
of id-or-null entries. -/
inductive StopRes where
  | single (r : Option Nat)
  | list (rs : List (Option Nat))
deriving DecidableEq

/-- The inner `stopById (id)` of `Player.prototype.stop` (lines 222-228):
look the id up in the registry; if absent return null; otherwise call the
voice's `stop()` with NO argument, delete the registry entry and return the
id. Registry entries are modelled by their integer ids; the third component
records the `p.stop(...)` invocations made, with the argument passed. -/
def stopById (tracked : List Nat) (id : Nat) :
    Option Nat × List Nat × List (Nat × Option ℝ) :=
  if id ∈ tracked then (some id, tracked.erase id, [(id, none)])
  else (none, tracked, [])

/-- Sequential `ids.map(stopById)`: each call sees the registry as left by the
previous one (JS `Array.prototype.map` over a closure mutating `tracked`). -/
def stopEach (ids : List Nat) (tracked : List Nat) :
    List (Option Nat) × List Nat × List (Nat × Option ℝ) :=
  match ids with
  | [] => ([], tracked, [])
  | i :: rest =>
    let r := stopById tracked i
    let rs := stopEach rest r.2.1
    (r.1 :: rs.1, rs.2.1, r.2.2 ++ rs.2.2)

/-- `Player.prototype.stop (when, ids)` (lines 218-233). `when` is normalized
by `when = when || 0` and then never used — no voice receives it. The guard
`if (!ids)` is a JS falsiness test: it is taken when `ids` is omitted AND
when `ids` is the number 0, and in both cases every registered voice is
stopped over a snapshot of the keys (`Object.keys(tracked).map(stopById)`).
An array argument maps `stopById` over its entries; any other id stops that
single voice. Returns (result, final registry, voice-stop invocations). -/
def playerStop (tracked : List Nat) (when : Option ℝ) (ids : Option (Nat ⊕ List Nat)) :
    StopRes × List Nat × List (Nat × Option ℝ) :=
  match ids with
  | none =>
    let r := stopEach tracked tracked
    (StopRes.list r.1, r.2)
  | some (Sum.inl n) =>
    if n = 0 then
      let r := stopEach tracked tracked
      (StopRes.list r.1, r.2)
    else
      let r := stopById tracked n
      (StopRes.single r.1, r.2)
  | some (Sum.inr l) =>
    let r := stopEach l tracked
    (StopRes.list r.1, r.2)

/-- The player-level mutable state: the id counter (`nextId`, starts at 1)
and the registry of live voice ids (`_playing`), in insertion order. -/
structure PlayerState where
  nextId : Nat
  tracked : List Nat
deriving DecidableEq

/-- `new Player(...)`: `nextId = 1`, empty registry (lines 154-155). -/
def initPlayer : PlayerState := { nextId := 1, tracked := [] }

/-- The registry bookkeeping of `Player.prototype.start` (lines 194-198):
`s.id = this.nextId++; tracked[s.id] = s`. Returns the assigned id. -/
def playerStart (st : PlayerState) : PlayerState × Nat :=
  ({ nextId := st.nextId + 1, tracked := st.tracked ++ [st.nextId] }, st.nextId)

/-- Operations a caller (or the host runtime) can perform on one player:
a `start` call, a `stop` call with any argument shape, and the natural-end
callback `s.onended = function () { delete tracked[s.id] }` for a voice id. -/
inductive POp where
  | start
  | stop (when : Option ℝ) (ids : Option (Nat ⊕ List Nat))
  | naturalEnd (id : Nat)

/-- Apply one operation to the player state; the second component is the id
assigned when the operation was a `start`. -/
def applyOp (st : PlayerState) (op : POp) : PlayerState × Option Nat :=
  match op with
  | POp.start =>
    let r := playerStart st
    (r.1, some r.2)
  | POp.stop w ids =>
    let r := playerStop st.tracked w ids
    ({ st with tracked := r.2.1 }, none)
  | POp.naturalEnd id =>
    ({ st with tracked := st.tracked.erase id }, none)

/-- Run a sequence of operations, collecting the assigned ids in order. -/
def runOps (st : PlayerState) : List POp → PlayerState × List Nat
  | [] => (st, [])
  | op :: rest =>
    let r := applyOp st op
    let rs := runOps r.1 rest
    (rs.1, (match r.2 with | some i => [i] | none => []) ++ rs.2)

/-- Number of `start` operations in a sequence. -/
def countStarts (ops : List POp) : Nat :=
  ops.countP fun op => match op with | POp.start => true | _ => false

/-- C10: the pitch-to-rate conversion is pure and satisfies, for every pitch
`p` in semitones, `rate(p) = 2^(p*100/1200) = 2^(p/12)` (the pitch option is
multiplied by 100 to obtain cents before conversion), and `rate(0) = 1`. -/
theorem pitchToRate_pow (p : ℝ) :
    pitchToRate p = (2 : ℝ) ^ (p * 100 / 1200) ∧
    pitchToRate p = (2 : ℝ) ^ (p / 12) ∧
    pitchToRate 0 = 1 := by
  refine ⟨rfl, ?_, ?_⟩
  · unfold pitchToRate centsToRate
    congr 1
    ring
  · unfold pitchToRate centsToRate
    norm_num

/-- C9: three-tier option resolution — a name present in the call-time options
resolves to its call-time value regardless of the other tiers; a name absent
there but present in the player defaults resolves to the player-default value;
otherwise it resolves to the global-default entry. (The accessor is a pure
function of its three inputs, so none of them is mutated.) -/
theorem from_three_tier (a b c : List (String × OptVal)) (name : String) :
    (∀ v, a.lookup name = some v → from' a b c name = some v) ∧
    (a.lookup name = none → ∀ v, b.lookup name = some v → from' a b c name = some v) ∧
    (a.lookup name = none → b.lookup name = none → from' a b c name = c.lookup name) := by
  refine ⟨?_, ?_, ?_⟩
  · intro v hv
    simp [from', hv]
  · intro ha v hv
    simp [from', ha, hv]
  · intro ha hb
    simp [from', ha, hb]

/-- Witness for C9 at a concrete input: `gain` present in the call options
(value 2) wins over the player default (5) and the global default (1). -/
theorem from_three_tier_witness :
    List.lookup "gain" [("gain", OptVal.num 2)] = some (OptVal.num 2) ∧
    from' [("gain", OptVal.num 2)] [("gain", OptVal.num 5)] DEFAULTS "gain" =
      some (OptVal.num 2) :=
  ⟨by decide,
   (from_three_tier [("gain", OptVal.num 2)] [("gain", OptVal.num 5)] DEFAULTS "gain").1
     (OptVal.num 2) (by decide)⟩

/-- C8 (amended): constructing a Sample with a missing destination fails
fatally and immediately (TypeError from `destination.context`), for every
combination of the other arguments; a missing buffer, however, is not checked
anywhere in the constructor — with a destination present and the resolved
`adsr` option defined (as it always is through `Player.start`, whose resolver
falls back to `DEFAULTS`), construction succeeds for every buffer argument,
including an absent one. -/
theorem sampleNew_missing_inputs (buffer : Option Buffer)
    (opts : String → Option OptVal) (dest : Dest) (av : OptVal)
    (hadsr : opts "adsr" = some av) :
    sampleNew buffer none opts = Except.error JsError.typeError ∧
    exceptIsOk (sampleNew (none : Option Buffer) (some dest) opts) = true ∧
    exceptIsOk (sampleNew buffer (some dest) opts) = true := by
  refine ⟨rfl, ?_, ?_⟩
  · simp [sampleNew, exceptIsOk, hadsr]
  · simp [sampleNew, exceptIsOk, hadsr]

/-- Witness for C8's amended theorem: the default option accessor resolves
`adsr` to the global default array, and construction with a missing buffer
under these options succeeds. -/
theorem sampleNew_missing_inputs_witness :
    from' [] [] DEFAULTS "adsr" = some (OptVal.arr [0.01, 0.1, 0.8, 0.3]) ∧
    exceptIsOk (sampleNew (none : Option Buffer) (some ⟨0⟩) (from' [] [] DEFAULTS)) = true :=
  ⟨rfl,
   (sampleNew_missing_inputs none (from' [] [] DEFAULTS) ⟨0⟩
     (OptVal.arr [0.01, 0.1, 0.8, 0.3]) rfl).2.1⟩

/-- Counterexample to C8 as stated: constructing with a missing buffer but a
present destination (and the global default options) succeeds — it does not
fail at construction time. -/
theorem sampleNew_missing_buffer_cex :
    exceptIsOk (sampleNew none (some ⟨0⟩) (from' [] [] DEFAULTS)) = true := by
  have h : from' [] [] DEFAULTS "adsr" = some (OptVal.arr [0.01, 0.1, 0.8, 0.3]) := rfl
  simp [sampleNew, exceptIsOk, h]

/-- The actions of an explicit `stop` contain no cleanup action. -/
theorem filter_cleanup_stop (ef : ℝ → ℝ) (ct : ℝ) (when : Option ℝ) :
    (sampleStopActions ef ct when).filter isCleanup = [] := rfl

/-- The actions of a `start` (with or without an implicit stop) contain no
cleanup action. -/
theorem filter_cleanup_start (ef : ℝ → ℝ) (ct : ℝ) (when : ℝ) (duration : Option ℝ) :
    (sampleStartActions ef ct when duration).filter isCleanup = [] := by
  cases duration with
  | none => rfl
  | some d =>
    by_cases hd : 0 < d
    · simp [sampleStartActions, hd, isCleanup, sampleStopActions]
    · simp [sampleStartActions, hd, isCleanup]

/-- C1: on the source's one-shot finished notification — whether the voice
played to natural completion or its scheduled hard stop fired — the voice
emits exactly one `ended` event, disconnects each of its four owned nodes
(source, filter, amp, env) exactly once, and invokes its registered
end-of-life callback exactly once; both termination paths converge on the
single cleanup sequence of the `onended` handler, and no other action of
either trace is a cleanup action. -/
theorem voice_cleanup_exactly_once (ef : ℝ → ℝ) (ct : ℝ) (when : ℝ)
    (duration : Option ℝ) (sw : Option ℝ) :
    (naturalEndTrace ef ct when duration).filter isCleanup = cleanupSeq ∧
    (explicitStopTrace ef ct when duration sw).filter isCleanup = cleanupSeq := by
  constructor
  · unfold naturalEndTrace
    rw [List.filter_append, filter_cleanup_start]
    rfl
  · unfold explicitStopTrace
    rw [List.filter_append, List.filter_append, filter_cleanup_start,
      filter_cleanup_stop]
    rfl

/-- C6 (amended): `Sample.stop(when)` emits a `stop` event and asks the
envelope to begin its release at `when` when `when` is a nonzero number —
but at the clock's current time when `when` is omitted OR equal to 0 (the
JS guard `when || this.ac.currentTime` treats 0 as absent). The source's
hard stop is scheduled at exactly the release-completion time the envelope
returns, so it is never earlier than the envelope's reported release end. -/
theorem sampleStop_release_and_hard_stop (ef : ℝ → ℝ) (ct w : ℝ) (h : w ≠ 0) :
    sampleStopActions ef ct (some w) =
      [SAction.event EvName.stop (some w),
       SAction.envRelease w,
       SAction.sourceStop (some (ef w))] ∧
    sampleStopActions ef ct none =
      [SAction.event EvName.stop none,
       SAction.envRelease ct,
       SAction.sourceStop (some (ef ct))] ∧
    sampleStopActions ef ct (some 0) =
      [SAction.event EvName.stop (some 0),
       SAction.envRelease ct,
       SAction.sourceStop (some (ef ct))] ∧
    (∀ t, SAction.sourceStop (some t) ∈ sampleStopActions ef ct (some w) → ef w ≤ t) := by
  refine ⟨by simp [sampleStopActions, jsOr, h], rfl, by simp [sampleStopActions, jsOr], ?_⟩
  intro t ht
  simp [sampleStopActions, jsOr, h] at ht
  exact le_of_eq ht.symm

/-- Witness for C6's amended theorem at `ef = (· + 2)`, `ct = 1`, `when = 3`. -/
theorem sampleStop_release_witness :
    (3 : ℝ) ≠ 0 ∧
    sampleStopActions (fun t => t + 2) 1 (some 3) =
      [SAction.event EvName.stop (some 3),
       SAction.envRelease 3,
       SAction.sourceStop (some (3 + 2))] :=
  ⟨by norm_num, (sampleStop_release_and_hard_stop (fun t => t + 2) 1 3 (by norm_num)).1⟩

/-- Counterexample to C6 as stated: calling `stop` with the explicit time 0
while the clock reads 1 does NOT ask the envelope to release at 0 — the falsy
guard substitutes the current time 1. -/
theorem sampleStop_zero_when_cex :
    SAction.envRelease 0 ∉ sampleStopActions (fun t => t) 1 (some 0) := by
  intro hmem
  have hj : jsOr (some 0) 1 = 1 := by simp [jsOr]
  simp only [sampleStopActions, hj, List.mem_cons, List.not_mem_nil, or_false] at hmem
  rcases hmem with h | h | h
  · cases h
  · injection h with h1
    norm_num at h1
  · cases h

/-- C7: `Sample.start(when, duration)` emits a `start` event and schedules the
envelope attack and the source playback at `when`; it invokes
`stop(when + duration)` if and only if `duration` is a positive number, in
which case the implicit stop (and its `stop` event) is scheduled `duration`
seconds after the start time. -/
theorem sampleStart_schedule (ef : ℝ → ℝ) (ct when : ℝ) (duration : Option ℝ) :
    SAction.event EvName.start (some when) ∈ sampleStartActions ef ct when duration ∧
    SAction.envStart when ∈ sampleStartActions ef ct when duration ∧
    SAction.sourceStart when ∈ sampleStartActions ef ct when duration ∧
    ((∃ d, duration = some d ∧ 0 < d) ↔
      ∃ x, SAction.stopInvoked x ∈ sampleStartActions ef ct when duration) ∧
    (∀ d, duration = some d → 0 < d →
      SAction.stopInvoked (when + d) ∈ sampleStartActions ef ct when duration ∧
      SAction.event EvName.stop (some (when + d)) ∈ sampleStartActions ef ct when duration) := by
  refine ⟨?_, ?_, ?_, ?_, ?_⟩
  · simp [sampleStartActions]
  · simp [sampleStartActions]
  · simp [sampleStartActions]
  · constructor
    · rintro ⟨d, rfl, hd⟩
      exact ⟨when + d, by simp [sampleStartActions, hd]⟩
    · rintro ⟨x, hx⟩
      cases duration with
      | none => simp [sampleStartActions] at hx
      | some d =>
        by_cases hd : 0 < d
        · exact ⟨d, rfl, hd⟩
        · simp [sampleStartActions, hd] at hx
  · rintro d rfl hd
    constructor
    · simp [sampleStartActions, hd]
    · simp [sampleStartActions, hd, sampleStopActions]

/-- Witness for C7 at `when = 5`, `duration = 2`: the implicit stop is
invoked at time 7. -/
theorem sampleStart_schedule_witness :
    (0 : ℝ) < 2 ∧
    SAction.stopInvoked (5 + 2) ∈ sampleStartActions (fun t => t) 0 5 (some 2) :=
  ⟨by norm_num,
   ((sampleStart_schedule (fun t => t) 0 5 (some 2)).2.2.2.2 2 rfl (by norm_num)).1⟩

/-- Stopping a snapshot of the whole registry stops each voice once: every
position yields its id, the registry ends empty, and each voice receives one
argument-less `stop()` call. -/
theorem stopEach_whole_registry (l : List Nat) :
    stopEach l l = (l.map some, [], l.map fun i => (i, (none : Option ℝ))) := by
  induction l with
  | nil => rfl
  | cons i t ih =>
    have hby : stopById (i :: t) i = (some i, t, [(i, none)]) := by
      simp [stopById]
    simp [stopEach, hby, ih]

/-- C2: `Player.stop(when)` with no `ids` argument stops every currently
registered voice (each receives exactly one `stop()` call), leaves the
registry empty, and returns the list of stopped ids, whose length equals the
number of voices registered immediately before the call (the empty list when
the registry was empty). -/
theorem playerStop_all (tracked : List Nat) (when : Option ℝ) :
    (playerStop tracked when none).1 = StopRes.list (tracked.map some) ∧
    (playerStop tracked when none).2.1 = [] ∧
    (tracked.map some).length = tracked.length ∧
    (playerStop tracked when none).2.2 = tracked.map fun i => (i, none) := by
  refine ⟨?_, ?_, by simp, ?_⟩ <;>
    simp [playerStop, stopEach_whole_registry]

/-- Every voice-stop invocation `stopEach` makes passes no argument. -/
theorem stopEach_calls_argless (ids : List Nat) (tracked : List Nat) :
    ((stopEach ids tracked).2.2.all fun c => c.2.isNone) = true := by
  induction ids generalizing tracked with
  | nil => rfl
  | cons i rest ih =>
    by_cases h : i ∈ tracked <;>
      simp [stopEach, stopById, h, ih]

/-- C4: `Player.stop` never forwards its `when` argument to the voices it
stops — every `p.stop(...)` invocation it makes carries no argument, for every
registry state, every `when` and every shape of `ids`; and a Sample stopped
with no argument asks its envelope to begin the release at the clock's
current time. -/
theorem playerStop_when_not_forwarded (tracked : List Nat) (when : Option ℝ)
    (ids : Option (Nat ⊕ List Nat)) :
    (((playerStop tracked when ids).2.2).all fun c => c.2.isNone) = true ∧
    ∀ ef ct, SAction.envRelease ct ∈ sampleStopActions ef ct none := by
  constructor
  · match ids with
    | none => simpa [playerStop] using stopEach_calls_argless tracked tracked
    | some (Sum.inl n) =>
      by_cases hn : n = 0
      · simpa [playerStop, hn] using stopEach_calls_argless tracked tracked
      · by_cases h : n ∈ tracked <;>
          simp [playerStop, hn, stopById, h]
    | some (Sum.inr l) => simpa [playerStop] using stopEach_calls_argless l tracked
  · intro ef ct
    simp [sampleStopActions, jsOr]

/-- A sequence of ids none of which is registered leaves the registry
untouched and yields null at every position. -/
theorem stopEach_all_absent (ids : List Nat) (tracked : List Nat)
    (h : ∀ i ∈ ids, i ∉ tracked) :
    stopEach ids tracked = (ids.map fun _ => none, tracked, []) := by
  induction ids with
  | nil => rfl
  | cons i rest ih =>
    have hi : i ∉ tracked := h i (by simp)
    have hrest := ih fun j hj => h j (by simp [hj])
    simp [stopEach, stopById, hi, hrest]

/-- C5 (amended): stopping a single NONZERO id that is not registered returns
null without raising an error and without altering the registry, and a
sequence of unregistered ids returns null at every position without altering
the registry. (The single id 0 is the exception: `if (!ids)` treats the
number 0 as `ids` omitted and stops every registered voice.) -/
theorem playerStop_unknown_id (tracked : List Nat) (when : Option ℝ) (id : Nat)
    (h0 : id ≠ 0) (h : id ∉ tracked) :
    playerStop tracked when (some (Sum.inl id)) = (StopRes.single none, tracked, []) ∧
    ∀ ids : List Nat, (∀ i ∈ ids, i ∉ tracked) →
      playerStop tracked when (some (Sum.inr ids)) =
        (StopRes.list (ids.map fun _ => none), tracked, []) := by
  constructor
  · simp [playerStop, h0, stopById, h]
  · intro ids hids
    simp [playerStop, stopEach_all_absent ids tracked hids]

/-- Witness for C5's amended theorem: stopping the absent id 9999 on a player
with voices 1 and 2 returns null and leaves the registry unchanged. -/
theorem playerStop_unknown_id_witness :
    ((9999 : Nat) ≠ 0 ∧ (9999 : Nat) ∉ [1, 2]) ∧
    playerStop [1, 2] none (some (Sum.inl 9999)) = (StopRes.single none, [1, 2], []) :=
  ⟨by decide, (playerStop_unknown_id [1, 2] none 9999 (by decide) (by decide)).1⟩

/-- Counterexample to C5 as stated: id 0 is never registered (ids start at 1),
yet stopping id 0 on a player with one voice does NOT return null — the falsy
`if (!ids)` guard routes it to the stop-all branch, which returns the list of
all stopped ids and empties the registry. -/
theorem playerStop_zero_id_cex :
    (playerStop [1] none (some (Sum.inl 0))).1 ≠ StopRes.single none ∧
    (playerStop [1] none (some (Sum.inl 0))).1 = StopRes.list [some 1] ∧
    (playerStop [1] none (some (Sum.inl 0))).2.1 = [] := by
  refine ⟨?_, ?_, ?_⟩ <;> decide

/-- Invariant behind id monotonicity: from any state, a run of operations
assigns exactly the ids `nextId, nextId+1, ...`, one per `start`, and leaves
the counter advanced by the number of starts. Only `start` touches the
counter; `stop` and natural-end callbacks never do. -/
theorem runOps_assigned (ops : List POp) : ∀ st : PlayerState,
    (runOps st ops).2 = List.range' st.nextId (countStarts ops) ∧
    (runOps st ops).1.nextId = st.nextId + countStarts ops := by
  induction ops with
  | nil =>
    intro st
    simp [runOps, countStarts]
  | cons op rest ih =>
    intro st
    cases op with
    | start =>
      have h := ih { nextId := st.nextId + 1, tracked := st.tracked ++ [st.nextId] }
      have hc : countStarts (POp.start :: rest) = countStarts rest + 1 := by
        simp [countStarts, List.countP_cons]
      refine ⟨?_, ?_⟩
      · simp only [runOps, applyOp, playerStart, hc]
        rw [List.range'_succ]
        simpa using h.1
      · simp only [runOps, applyOp, playerStart, hc]
        have := h.2
        simp only [runOps] at this ⊢
        omega
    | stop w ids =>
      have h := ih { st with tracked := (playerStop st.tracked w ids).2.1 }
      have hc : countStarts (POp.stop w ids :: rest) = countStarts rest := by
        simp [countStarts, List.countP_cons]
      refine ⟨?_, ?_⟩
      · simpa [runOps, applyOp, hc] using h.1
      · simpa [runOps, applyOp, hc] using h.2
    | naturalEnd id =>
      have h := ih { st with tracked := st.tracked.erase id }
      have hc : countStarts (POp.naturalEnd id :: rest) = countStarts rest := by
        simp [countStarts, List.countP_cons]
      refine ⟨?_, ?_⟩
      · simpa [runOps, applyOp, hc] using h.1
      · simpa [runOps, applyOp, hc] using h.2

/-- C3: over any sequence of operations on a fresh player — `start` calls
arbitrarily interleaved with `stop` calls (of any argument shape) and
natural-end callbacks — the assigned voice ids are exactly `1, 2, ..., N`
for `N` the number of `start` calls: distinct, strictly increasing, starting
at 1, and never reused even after a voice ends. -/
theorem player_ids_monotonic (ops : List POp) :
    (runOps initPlayer ops).2 = List.range' 1 (countStarts ops) ∧
    (runOps initPlayer ops).2.Nodup ∧
    List.Chain' (· < ·) (runOps initPlayer ops).2 ∧
    (runOps initPlayer ops).2.length = countStarts ops ∧
    (runOps initPlayer ops).2.head? =
      (if 0 < countStarts ops then some 1 else none) := by
  have h := (runOps_assigned ops initPlayer).1
  rw [show initPlayer.nextId = 1 from rfl] at h
  refine ⟨h, ?_, ?_, ?_, ?_⟩
  · rw [h]
    exact List.nodup_range' _ _
  · rw [h]
    exact List.chain'_iff_pairwise.mpr (List.pairwise_lt_range' _ _ 1)
  · rw [h]
    simp
  · rw [h]
    cases hk : countStarts ops with
    | zero => simp
    | succ k =>
      rw [List.range'_succ]
      simp
